import Mathlib

/-!
Verification development for the shininghunter detection & control engine.

The definitions below are a shallow embedding of the Python sources:
`src/modules/image_analyzer.py` (similarity metrics and the multi-reference
matcher), `src/modules/auto_hunter.py` (confirmation protocol, hunt loop,
state control, cancellable waits), `src/modules/screenshot_manager.py`
(`capture_all_regions`) and the hunt-control handlers of
`src/modules/gui_interface.py`.  External library primitives (cv2 histogram
correlation, cv2 resize, grayscale conversion, skimage SSIM) are modelled as
an oracle structure of possibly-failing functions; everything the repository
itself computes is embedded concretely.
-/

namespace ShiningHunter

/-- An RGB pixel; channel values are natural numbers (uint8 in the source). -/
structure RGB where
  r : Nat
  g : Nat
  b : Nat
deriving DecidableEq, Repr

/-- An RGB image: height, width, and the pixel buffer in row-major order. -/
structure Img where
  h : Nat
  w : Nat
  pixels : List RGB
deriving DecidableEq, Repr

/-- `numpy` shape of an RGB image, `(height, width)`. -/
def Img.shape (i : Img) : Nat × Nat := (i.h, i.w)

/-- A grayscale image (result of `cv2.cvtColor(..., COLOR_RGB2GRAY)`). -/
structure GrayImg where
  h : Nat
  w : Nat
  data : List Nat
deriving DecidableEq, Repr

/-- Shape of a grayscale image. -/
def GrayImg.shape (g : GrayImg) : Nat × Nat := (g.h, g.w)

/-- One channel of `cv2.calcHist([image], [c], None, [256], [0, 256])`:
256 bins, bin `v` counting the pixels whose channel value equals `v`. -/
def calcHistChannel (f : RGB → Nat) (img : Img) : List Nat :=
  (List.range 256).map (fun v => (img.pixels.filter (fun p => f p == v)).length)

/-- `ImageAnalyzer.calculate_color_histogram`: concatenate the R, G, B
256-bin histograms and normalize by the total count (`np.sum`). -/
def calculate_color_histogram (img : Img) : List ℚ :=
  let hist := calcHistChannel (fun p => p.r) img ++ calcHistChannel (fun p => p.g) img
    ++ calcHistChannel (fun p => p.b) img
  let total : ℚ := (hist.foldl (· + ·) 0 : Nat)
  hist.map (fun c => (c : ℚ) / total)

/-- The external image primitives used by the analyzer (cv2 / skimage).
Each may fail, modelling the exceptions the Python wrappers catch. -/
structure CVOracle where
  compareHist : List ℚ → List ℚ → Except Unit ℚ
  resize : Img → Nat × Nat → Except Unit Img
  resizeGray : GrayImg → Nat × Nat → Except Unit GrayImg
  toGray : Img → Except Unit GrayImg
  ssim : GrayImg → GrayImg → Except Unit ℚ

/-- `ImageAnalyzer.compare_color_similarity`: histogram correlation clamped
below at 0; any failure of the correlation primitive yields 0. -/
def compare_color_similarity (cv : CVOracle) (img1 img2 : Img) : ℚ :=
  let hist1 := calculate_color_histogram img1
  let hist2 := calculate_color_histogram img2
  match cv.compareHist hist1 hist2 with
  | .ok c => max 0 c
  | .error _ => 0

/-- `cv2.absdiff` followed by `np.mean`: requires both images to be
well-formed arrays of the same shape, then averages the per-channel
absolute differences over all `3·h·w` entries. -/
def absdiffMean (img1 img2 : Img) : Except Unit ℚ :=
  if img1.shape = img2.shape ∧ img1.pixels.length = img1.h * img1.w
      ∧ img2.pixels.length = img2.h * img2.w then
    let total : Nat := ((img1.pixels.zip img2.pixels).map
      (fun pq => (max pq.1.r pq.2.r - min pq.1.r pq.2.r)
        + (max pq.1.g pq.2.g - min pq.1.g pq.2.g)
        + (max pq.1.b pq.2.b - min pq.1.b pq.2.b))).foldl (· + ·) 0
    .ok ((total : ℚ) / (3 * img1.h * img1.w : Nat))
  else
    .error ()

/-- `ImageAnalyzer.calculate_color_difference`: resize the second image to
the shape of the first image when they differ, then mean absolute difference;
any failure yields `+∞` (Python `float(inf)`), modelled as `⊤`. -/
def calculate_color_difference (cv : CVOracle) (img1 img2 : Img) : WithTop ℚ :=
  let resized : Except Unit Img :=
    if img1.shape = img2.shape then .ok img2 else cv.resize img2 img1.shape
  match resized with
  | .error _ => ⊤
  | .ok i2 =>
    match absdiffMean img1 i2 with
    | .ok d => (d : WithTop ℚ)
    | .error _ => ⊤

/-- `ImageAnalyzer.calculate_structural_similarity`: grayscale both images,
resize the second to the shape of the first when they differ, SSIM clamped below
at 0; any failure yields 0. -/
def calculate_structural_similarity (cv : CVOracle) (img1 img2 : Img) : ℚ :=
  match cv.toGray img1, cv.toGray img2 with
  | .ok gray1, .ok gray2 =>
    let resized : Except Unit GrayImg :=
      if gray1.shape = gray2.shape then .ok gray2 else cv.resizeGray gray2 gray1.shape
    (match resized with
     | .error _ => 0
     | .ok g2 =>
       match cv.ssim gray1 g2 with
       | .ok s => max 0 s
       | .error _ => 0)
  | _, _ => 0

/-- The threshold set of the analyzer (`ImageAnalyzer.thresholds`). -/
structure Thresholds where
  color_similarity : ℚ
  ssim_threshold : ℚ
  color_difference : ℚ
deriving DecidableEq, Repr

/-- Result dictionary of `ImageAnalyzer.analyze_image`. -/
structure AnalysisResult where
  reference_name : String
  color_similarity : ℚ
  color_difference : WithTop ℚ
  structural_similarity : ℚ
  overall_score : ℚ
  is_match : Bool
deriving DecidableEq, Repr

/-- Dictionary access `self.reference_images[name]` over the reference
association list (first binding wins, as in a Python dict the names are
unique). -/
def findRef (name : String) : List (String × Img) → Option Img
  | [] => none
  | (n, i) :: rest => if n = name then some i else findRef name rest

/-- `ImageAnalyzer.analyze_image`: compare the current image against one
named reference; `none` models the empty dict returned when the reference
name is absent. -/
def analyze_image (cv : CVOracle) (thr : Thresholds) (refs : List (String × Img))
    (current : Img) (reference_name : String) : Option AnalysisResult :=
  match findRef reference_name refs with
  | none => none
  | some refImg =>
    let cs := compare_color_similarity cv current refImg
    let cd := calculate_color_difference cv current refImg
    let ss := calculate_structural_similarity cv current refImg
    some {
      reference_name := reference_name
      color_similarity := cs
      color_difference := cd
      structural_similarity := ss
      overall_score := (cs + ss) / 2
      is_match := decide (thr.color_similarity ≤ cs ∧ thr.ssim_threshold ≤ ss
        ∧ cd ≤ (thr.color_difference : WithTop ℚ)) }

/-- Result dictionary of `ImageAnalyzer.analyze_image_multi_reference`. -/
structure MultiResult where
  reference_name : String
  best_reference : String
  color_similarity : ℚ
  color_difference : WithTop ℚ
  structural_similarity : ℚ
  overall_score : ℚ
  is_match : Bool
  all_results : List AnalysisResult
deriving DecidableEq, Repr

/-- Python `max` over a non-empty list of numbers (`[]` never arises). -/
def maxList : List ℚ → ℚ
  | [] => 0
  | x :: xs => xs.foldl max x

/-- Python `min` over a non-empty list of possibly-infinite differences. -/
def minListT : List (WithTop ℚ) → WithTop ℚ
  | [] => ⊤
  | x :: xs => xs.foldl min x

/-- Python `max` over `all_results` keyed by `overall_score`: keeps the
first element attaining the maximum (replacement only on strict increase). -/
def argmaxOverall : List AnalysisResult → Option AnalysisResult
  | [] => none
  | x :: xs => some (xs.foldl (fun best r =>
      if best.overall_score < r.overall_score then r else best) x)

/-- `ImageAnalyzer.analyze_image_multi_reference`: evaluate every loaded
reference, aggregate max color similarity, max SSIM, max overall score,
min color difference, and pick the best reference by overall score; `none`
models the empty dict returned for an empty reference set. -/
def analyze_image_multi_reference (cv : CVOracle) (thr : Thresholds)
    (refs : List (String × Img)) (current : Img) : Option MultiResult :=
  if refs.isEmpty then none
  else
    let all_results := refs.filterMap (fun p => analyze_image cv thr refs current p.1)
    match argmaxOverall all_results with
    | none => none
    | some best =>
      let mcs := maxList (all_results.map (fun r => r.color_similarity))
      let mss := maxList (all_results.map (fun r => r.structural_similarity))
      let mos := maxList (all_results.map (fun r => r.overall_score))
      let mcd := minListT (all_results.map (fun r => r.color_difference))
      some {
        reference_name := "多参考图像(" ++ toString all_results.length ++ "个)"
        best_reference := best.reference_name
        color_similarity := mcs
        color_difference := mcd
        structural_similarity := mss
        overall_score := mos
        is_match := decide (thr.color_similarity ≤ mcs ∧ thr.ssim_threshold ≤ mss
          ∧ mcd ≤ (thr.color_difference : WithTop ℚ))
        all_results := all_results }

/-! ## Confirmation protocol (`AutoHunter._analyze_regions`) -/

/-- One captured region as seen by the confirmation round: its name, the
verdict of the multi-reference matcher on its image, and the saved image path
(`none` models a result dict without an `image_path` key). -/
structure Captured where
  name : String
  is_match : Bool
  image_path : Option String
deriving DecidableEq, Repr

/-- The failure label of `_analyze_regions`: a failed region annotated
with the 1-based attempt number it failed on. -/
def annotateFail (name : String) (attempt : Nat) : String :=
  name ++ " (第" ++ toString (attempt + 1) ++ "次判断)"

/-- Loop accumulator of the region scan of one attempt in `_analyze_regions`. -/
structure ScanAcc where
  failed_regions : List String
  failed_images : List (String × String)
  success_count : Nat
  all_success : Bool
deriving DecidableEq, Repr

/-- One iteration of the region loop in `_analyze_regions`: count a match,
or record the annotated failure and (when present) its image path. -/
def scanStep (attempt : Nat) (acc : ScanAcc) (c : Captured) : ScanAcc :=
  if c.is_match then { acc with success_count := acc.success_count + 1 }
  else
    let info := annotateFail c.name attempt
    { acc with
      failed_regions := acc.failed_regions ++ [info]
      failed_images := match c.image_path with
        | some p => acc.failed_images ++ [(info, p)]
        | none => acc.failed_images
      all_success := false }

/-- The per-attempt region scan of `_analyze_regions`: count matches,
collect annotated failures and their image paths, in capture order. -/
def scanRegions (attempt : Nat) (results : List Captured) : ScanAcc :=
  results.foldl (scanStep attempt) ⟨[], [], 0, true⟩

/-- The result dict of `_analyze_regions`.  `none` in an `Option` field
models the absence of that key in the returned Python dict. -/
structure Outcome where
  has_failure : Bool
  success_count : Nat
  failed_regions : List String
  failed_images : Option (List (String × String))
  total_regions : Option Nat
  attempt_count : Option Nat
deriving DecidableEq, Repr

/-- The capture-failed dict: has_failure true, success_count 0, failed_regions 截图失败. -/
def captureFailOutcome : Outcome := ⟨true, 0, ["截图失败"], none, none, none⟩

/-- The no-reference dict: has_failure true, success_count 0, failed_regions 无参考图像. -/
def noReferenceOutcome : Outcome := ⟨true, 0, ["无参考图像"], none, none, none⟩

/-- Observable events of one confirmation round: the cancellable
retry-interval wait before a retry attempt, and each capture. -/
inductive REvent where
  | retryWait : ℚ → Nat → REvent
  | capture : Nat → REvent
deriving DecidableEq, Repr

/-- Events of one attempt: attempts after the first are preceded by the
cancellable `retry_interval` wait, then the capture. -/
def attemptTrace (retryInterval : ℚ) (i : Nat) : List REvent :=
  (if 0 < i then [REvent.retryWait retryInterval i] else []) ++ [REvent.capture i]

/-- The attempt loop of `_analyze_regions` (`for attempt in
range(retry_count + 1)`), with `captures` supplying the
`capture_all_regions` output of each attempt.  `fuel` is `retryCount + 1 - attempt`; the
`0` case is unreachable from `analyze_regions`. -/
def analyzeFrom (captures : Nat → List Captured) (retryCount : Nat)
    (retryInterval : ℚ) : Nat → Nat → Outcome × List REvent
  | 0, _ => (captureFailOutcome, [])
  | fuel + 1, attempt =>
    let pre : List REvent :=
      if 0 < attempt then [REvent.retryWait retryInterval attempt] else []
    let results := captures attempt
    if results.isEmpty then
      if attempt = retryCount then (captureFailOutcome, pre ++ [REvent.capture attempt])
      else
        let rest := analyzeFrom captures retryCount retryInterval fuel (attempt + 1)
        (rest.1, pre ++ [REvent.capture attempt] ++ rest.2)
    else
      let acc := scanRegions attempt results
      if acc.all_success then
        (⟨false, acc.success_count, [], some [], some results.length, some (attempt + 1)⟩,
         pre ++ [REvent.capture attempt])
      else if attempt < retryCount then
        let rest := analyzeFrom captures retryCount retryInterval fuel (attempt + 1)
        (rest.1, pre ++ [REvent.capture attempt] ++ rest.2)
      else
        (⟨true, acc.success_count, acc.failed_regions, some acc.failed_images,
          some results.length, some (retryCount + 1)⟩,
         pre ++ [REvent.capture attempt])

/-- `AutoHunter._analyze_regions`: the empty-reference check followed by the
bounded retry loop, returning the outcome dict and the event trace of the round. -/
def analyze_regions (referenceNames : List String) (captures : Nat → List Captured)
    (retryCount : Nat) (retryInterval : ℚ) : Outcome × List REvent :=
  if referenceNames.isEmpty then (noReferenceOutcome, [])
  else analyzeFrom captures retryCount retryInterval (retryCount + 1) 0

/-- The default threshold set of `ImageAnalyzer.__init__`:
`{color_similarity: 0.8, ssim_threshold: 0.7, color_difference: 30}`. -/
def defaultThresholds : Thresholds := ⟨4/5, 7/10, 30⟩

/-- The analysis record `analyze_image` builds for a reference that is
present in the registry (used to state what the multi-reference
aggregation computes per reference). -/
def perRef (cv : CVOracle) (thr : Thresholds) (current : Img)
    (p : String × Img) : AnalysisResult :=
  let cs := compare_color_similarity cv current p.2
  let cd := calculate_color_difference cv current p.2
  let ss := calculate_structural_similarity cv current p.2
  { reference_name := p.1
    color_similarity := cs
    color_difference := cd
    structural_similarity := ss
    overall_score := (cs + ss) / 2
    is_match := decide (thr.color_similarity ≤ cs ∧ thr.ssim_threshold ≤ ss
      ∧ cd ≤ (thr.color_difference : WithTop ℚ)) }

/-! ## Region capture (`ScreenshotManager.capture_all_regions`) -/

/-- A screen rectangle `(x1, y1, x2, y2)`. -/
abbrev Rect : Type := Int × Int × Int × Int

/-- One entry of `ScreenshotManager.screenshot_regions`. -/
structure RegionInfo where
  name : String
  region : Rect
  enabled : Bool

/-- One entry of the list returned by `capture_all_regions` (the fields the
confirmation round consumes). -/
structure CaptureResult where
  name : String
  image : Img
  image_path : String
deriving DecidableEq, Repr

/-- `ScreenshotManager.capture_all_regions`: skip disabled regions, capture
each enabled one via the frame source `cap`, silently skip regions whose
capture returns `None`, and save each captured image to a file path. -/
def capture_all_regions (regions : List RegionInfo) (cap : Rect → Option Img)
    (save : Img → String → String) : List CaptureResult :=
  regions.filterMap (fun r =>
    if r.enabled then (cap r.region).map (fun img => ⟨r.name, img, save img r.name⟩)
    else none)

/-- The `is_match` field (default `False`) of the multi-reference
analysis result for one captured image. -/
def multiIsMatch (cv : CVOracle) (thr : Thresholds) (refs : List (String × Img))
    (img : Img) : Bool :=
  match analyze_image_multi_reference cv thr refs img with
  | some o => o.is_match
  | none => false

/-- The region loop of `_analyze_regions` applied to the
`capture_all_regions` output of one attempt: each captured region paired with the
multi-reference verdict on its image and its saved path. -/
def roundCaptured (cv : CVOracle) (thr : Thresholds) (refs : List (String × Img))
    (caps : List CaptureResult) : List Captured :=
  caps.map (fun c => ⟨c.name, multiIsMatch cv thr refs c.image, some c.image_path⟩)

/-! ## Timeline executor (`AutoHunter._hunt_loop` and its handlers) -/

/-- The `action` tag of a timeline entry. -/
inductive ActKind where
  | initial_delay
  | reset
  | quick_load
  | confirm
  | analysis
  | custom_delay
deriving DecidableEq, Repr

/-- One timeline action dict `{action, delay, description}`. -/
structure TAction where
  action : ActKind
  delay : ℚ
  description : String
deriving DecidableEq, Repr

/-- The mutable hunter state as seen by the worker thread, plus counters
indexing into the actuation/analysis oracles (one per invocation). -/
structure HState where
  is_hunting : Bool
  hunt_count : Nat
  actIdx : Nat
  anaIdx : Nat
deriving DecidableEq, Repr

/-- The environment of one hunt pass: the result of the `i`-th input
actuation and the outcome of the `i`-th `_analyze_regions` round. -/
structure HuntEnv where
  actuations : Nat → Bool
  analyses : Nat → Outcome

/-- Observable events emitted while the hunt loop runs: progress callbacks,
countdowns for cancellable waits, actuator invocations, the shiny BGM, the
result / error dialogs, the result callback and the stop callback. -/
inductive HEvent where
  | progress : Nat → Nat → String → HEvent
  | countdown : ℚ → String → HEvent
  | actuate : ActKind → Bool → HEvent
  | shinyBgm : HEvent
  | resultDialog : Nat → HEvent
  | huntResult : HEvent
  | errorDialog : String → HEvent
  | stopped : Nat → HEvent
deriving DecidableEq, Repr

/-- The observable effect of `AutoHunter._wait_with_cancel`: the countdown
callback fires only when the action label is non-empty. -/
def waitEvents (secs : ℚ) (label : String) : List HEvent :=
  if label = "" then [] else [HEvent.countdown secs label]

/-- `AutoHunter._handle_error`: leave `Running`, show the error dialog and
fire the stop callback with the current cumulative hunt count. -/
def handle_error (st : HState) (msg : String) : HState × List HEvent :=
  ({ st with is_hunting := false }, [HEvent.errorDialog msg, HEvent.stopped st.hunt_count])

/-- `AutoHunter._show_result_dialog`: reads the `total_regions` key
unconditionally, so a dict without that key raises `KeyError`. -/
def show_result_dialog (o : Outcome) : Except String HEvent :=
  match o.total_regions with
  | none => .error "KeyError: total_regions"
  | some t => .ok (HEvent.resultDialog t)

/-- `AutoHunter._handle_analysis_failure`: add the success count of the round to
the hunt counter, leave `Running`, play the shiny BGM, show the result
dialog and fire the result callback; an exception escaping the dialog is
caught by the `_hunt_loop` handler, which calls `_handle_error`. -/
def handle_analysis_failure (st : HState) (o : Outcome) : HState × List HEvent :=
  let st1 := { st with hunt_count := st.hunt_count + o.success_count, is_hunting := false }
  match show_result_dialog o with
  | .ok ev => (st1, [HEvent.shinyBgm, ev, HEvent.huntResult])
  | .error e =>
    let err := handle_error st1 ("自动刷闪出错: " ++ e)
    (err.1, HEvent.shinyBgm :: err.2)

/-- The fatal-error message of each actuation action in `_hunt_loop`. -/
def actuateFailMsg : ActKind → String
  | .reset => "重置键失败"
  | .quick_load => "快速读取键失败"
  | .confirm => "确认键失败"
  | _ => ""

/-- One iteration of the `for i, action in enumerate(timeline_actions)` body
of `_hunt_loop`; the `Bool` component is `true` when the body executed a
`return` (ending the run). -/
def huntStep (env : HuntEnv) (st : HState) (i : Nat) (a : TAction) :
    HState × List HEvent × Bool :=
  let stepMsg := HEvent.progress st.hunt_count 0
    ("步骤" ++ toString (i + 1) ++ ": " ++ a.description)
  match a.action with
  | .initial_delay =>
    (st, stepMsg :: waitEvents a.delay ("开始刷闪 - " ++ a.description), false)
  | .reset =>
    let ok := env.actuations st.actIdx
    let st1 := { st with actIdx := st.actIdx + 1 }
    if ok then
      (st1, stepMsg :: HEvent.actuate .reset true
        :: waitEvents a.delay ("重置后等待 - " ++ a.description), false)
    else
      let err := handle_error st1 (actuateFailMsg .reset)
      (err.1, stepMsg :: HEvent.actuate .reset false :: err.2, true)
  | .quick_load =>
    let ok := env.actuations st.actIdx
    let st1 := { st with actIdx := st.actIdx + 1 }
    if ok then
      (st1, stepMsg :: HEvent.actuate .quick_load true
        :: waitEvents a.delay ("快速读取后等待 - " ++ a.description), false)
    else
      let err := handle_error st1 (actuateFailMsg .quick_load)
      (err.1, stepMsg :: HEvent.actuate .quick_load false :: err.2, true)
  | .confirm =>
    let ok := env.actuations st.actIdx
    let st1 := { st with actIdx := st.actIdx + 1 }
    if ok then
      (st1, stepMsg :: HEvent.actuate .confirm true
        :: waitEvents a.delay a.description, false)
    else
      let err := handle_error st1 (actuateFailMsg .confirm)
      (err.1, stepMsg :: HEvent.actuate .confirm false :: err.2, true)
  | .analysis =>
    let o := env.analyses st.anaIdx
    let st1 := { st with anaIdx := st.anaIdx + 1 }
    if o.has_failure then
      let fail := handle_analysis_failure st1 o
      (fail.1, stepMsg :: fail.2, true)
    else
      let st2 := { st1 with hunt_count := st1.hunt_count + o.success_count }
      (st2, [stepMsg,
        HEvent.progress st2.hunt_count 0
          ("第" ++ toString st2.hunt_count ++ "次刷闪完成，继续下一轮"),
        HEvent.progress st2.hunt_count o.success_count ""], false)
  | .custom_delay =>
    (st, stepMsg :: waitEvents a.delay a.description, false)

/-- One pass of the inner `for` loop of `_hunt_loop` over the timeline,
starting at action index `i`: checks `is_hunting` before every action
(`break`), threads the state, and stops early when a step returns. -/
def huntPassAux (env : HuntEnv) (st : HState) (i : Nat) :
    List TAction → HState × List HEvent × Bool
  | [] => (st, [], false)
  | a :: rest =>
    if st.is_hunting then
      let step := huntStep env st i a
      if step.2.2 then step
      else
        let tail := huntPassAux env step.1 (i + 1) rest
        (tail.1, step.2.1 ++ tail.2.1, tail.2.2)
    else (st, [], false)

/-! ## Control surface (`gui_interface.py` hunt handlers + `AutoHunter`) -/

/-- The state shared between the GUI handlers and the hunter that the
pause/resume/stop/start protocol manipulates. -/
structure CtrlState where
  is_paused : Bool
  is_hunting : Bool
  hunt_count : Nat
deriving DecidableEq, Repr

/-- `AutoHunter.reset_counter`. -/
def reset_counter (st : CtrlState) : CtrlState :=
  { st with hunt_count := 0 }

/-- `AutoHunter.continue_hunting` (misjudgment resume): restart the worker
without touching the counter. -/
def continue_hunting (st : CtrlState) : CtrlState :=
  if st.is_hunting then st else { st with is_hunting := true }

/-- `GUI.start_auto_hunt` followed by `AutoHunter.start_hunting`: reject an
empty timeline; reset the counter only when not resuming from pause;
validate the retry configuration; start the worker when the requirement
check passes, clearing the pause flag on success. -/
def start_auto_hunt (timeline : List TAction) (retryCount : Int) (retryInterval : ℚ)
    (requirementsOk : Bool) (st : CtrlState) : CtrlState :=
  if timeline.isEmpty then st
  else
    let st1 := if st.is_paused then st else reset_counter st
    if retryCount < 0 ∨ 5 < retryCount then st1
    else if retryInterval < 1/2 ∨ 10 < retryInterval then st1
    else if st1.is_hunting then st1
    else if requirementsOk then { st1 with is_hunting := true, is_paused := false }
    else st1

/-- `GUI.pause_auto_hunt` (via `AutoHunter.pause_hunting`): only meaningful
while hunting; leaves the counter untouched and marks the pause flag. -/
def pause_auto_hunt (st : CtrlState) : CtrlState :=
  if st.is_hunting then { st with is_hunting := false, is_paused := true } else st

/-- `GUI.stop_auto_hunt` (via `AutoHunter.stop_hunting`): stop the worker
and clear the pause flag; the counter is left for the next fresh start. -/
def stop_auto_hunt (st : CtrlState) : CtrlState :=
  { st with is_hunting := false, is_paused := false }

/-! ## Cancellable wait (`AutoHunter._wait_with_cancel`) -/

/-- The `time.sleep(0.1)` quantum of the polling loop. -/
def sleepQuantum : ℚ := 1/10

/-- The polling loop `while time.time() - start_time < seconds and
self.is_hunting: time.sleep(0.1)` in discrete time: check `i` happens after
`i` sleeps (elapsed `sleepQuantum · i`); returns the check index at which
the loop exits.  `fuel` bounds the recursion; `analyze` callers supply
enough fuel for the time bound to fire. -/
def waitSteps (seconds : ℚ) (hunting : Nat → Bool) : Nat → Nat → Nat
  | 0, i => i
  | fuel + 1, i =>
    if sleepQuantum * i < seconds ∧ hunting i = true then
      waitSteps seconds hunting fuel (i + 1)
    else i

/-- `_wait_with_cancel seconds`: run the polling loop from elapsed 0 with
enough fuel to cover the full duration. -/
def wait_with_cancel_steps (seconds : ℚ) (hunting : Nat → Bool) : Nat :=
  waitSteps seconds hunting ((10 * seconds).ceil.toNat + 1) 0

/-- The event trace of the confirmation-round attempts
`a, a+1, ..., a+n-1`. -/
def tracesFrom (retryInterval : ℚ) : Nat → Nat → List REvent
  | _, 0 => []
  | a, n + 1 => attemptTrace retryInterval a ++ tracesFrom retryInterval (a + 1) n

/-! ## Concrete instances used by individual claims -/

/-- A captured frame: one black pixel. -/
def c9Current : Img := ⟨1, 1, [⟨0, 0, 0⟩]⟩

/-- A reference far from the capture in pixel values (color difference 90). -/
def c9RefA : Img := ⟨1, 1, [⟨90, 90, 90⟩]⟩

/-- A reference identical to the capture (color difference 0). -/
def c9RefB : Img := ⟨1, 1, [⟨0, 0, 0⟩]⟩

/-- A two-element reference set. -/
def c9Refs : List (String × Img) := [("A", c9RefA), ("B", c9RefB)]

/-- A histogram-correlation primitive that scores 9/10 against reference A
and 1/10 otherwise. -/
def c9CompareHist (_h1 h2 : List ℚ) : Except Unit ℚ :=
  .ok (if h2 == calculate_color_histogram c9RefA then 9/10 else 1/10)

/-- An SSIM primitive that scores 1/10 against the grayscale of reference A and
9/10 otherwise. -/
def c9Ssim (_g1 g2 : GrayImg) : Except Unit ℚ :=
  .ok (if g2.data == [90] then 1/10 else 9/10)

/-- The oracle instance for the independent-aggregation scenario. -/
def c9CV : CVOracle := {
  compareHist := c9CompareHist
  resize := fun i _ => .ok i
  resizeGray := fun g _ => .ok g
  toGray := fun i => .ok ⟨i.h, i.w, i.pixels.map (fun p => p.r)⟩
  ssim := c9Ssim }

/-- A one-pixel white image. -/
def cxImg1 : Img := ⟨1, 1, [⟨255, 255, 255⟩]⟩

/-- A 1×2 image with one white and one black pixel: its shape differs from
`cxImg1` and its normalized histogram differs from any one-pixel image. -/
def cxImg2 : Img := ⟨1, 2, [⟨255, 255, 255⟩, ⟨0, 0, 0⟩]⟩

/-- What the resize primitive below returns for any request. -/
def cxResized : Img := ⟨1, 1, [⟨255, 255, 255⟩]⟩

/-- An oracle whose histogram correlation returns the first histogram entry
of its second argument (the normalized count of black-in-red-channel), so
it distinguishes `cxImg2` from its resized form. -/
def cxCV : CVOracle := {
  compareHist := fun _ h2 => .ok (h2.headD 0)
  resize := fun _ _ => .ok cxResized
  resizeGray := fun g _ => .ok g
  toGray := fun i => .ok ⟨i.h, i.w, i.pixels.map (fun p => p.r)⟩
  ssim := fun _ _ => .ok 1 }

/-- An oracle whose primitives all fail, exercising the failure branches of
the three metrics. -/
def failCV : CVOracle := {
  compareHist := fun _ _ => .error ()
  resize := fun _ _ => .error ()
  resizeGray := fun _ _ => .error ()
  toGray := fun _ => .error ()
  ssim := fun _ _ => .error () }

/-- The outcome `_analyze_regions` returns when the reference list is
empty, with default retry configuration. -/
def c4Outcome : Outcome := (analyze_regions [] (fun _ => []) 2 2).1

/-- A hunt environment whose analysis rounds all yield the empty-reference
outcome. -/
def c4Env : HuntEnv := ⟨fun _ => true, fun _ => c4Outcome⟩

/-- A benign oracle whose external primitives always succeed with perfect
scores (a reference identical to the capture matches). -/
def c10CV : CVOracle := {
  compareHist := fun _ _ => .ok 1
  resize := fun i _ => .ok i
  resizeGray := fun g _ => .ok g
  toGray := fun i => .ok ⟨i.h, i.w, i.pixels.map (fun p => p.r)⟩
  ssim := fun _ _ => .ok 1 }

/-- A one-pixel black image used as both capture and reference. -/
def c10Img : Img := ⟨1, 1, [⟨0, 0, 0⟩]⟩

/-- A single-reference registry. -/
def c10Refs : List (String × Img) := [("ref", c10Img)]

/-- Two enabled regions, `A` and `B`. -/
def c10Regions : List RegionInfo :=
  [⟨"A", ((0 : Int), (0 : Int), (1 : Int), (1 : Int)), true⟩,
   ⟨"B", ((2 : Int), (0 : Int), (3 : Int), (1 : Int)), true⟩]

/-- A frame source that captures region `A` and fails on region `B`. -/
def c10Cap : Rect → Option Img :=
  fun r => if r = ((0 : Int), (0 : Int), (1 : Int), (1 : Int)) then some c10Img else none

/-- Evidence-file naming for the scenario. -/
def c10Save : Img → String → String := fun _ n => "screenshots/" ++ n ++ ".png"

/-- The captured-and-analyzed region list of one attempt in the scenario. -/
def c10Captures : List Captured :=
  roundCaptured c10CV defaultThresholds c10Refs
    (capture_all_regions c10Regions c10Cap c10Save)

/-- A hunt environment whose first actuation fails. -/
def c7Env : HuntEnv := ⟨fun _ => false, fun _ => c4Outcome⟩

/-- A running hunter state with a nonzero cumulative count. -/
def c7St : HState := ⟨true, 5, 0, 0⟩

/-- A reset action with a one-second post-delay. -/
def c7Act : TAction := ⟨.reset, 1, "重置"⟩

/-- Every attempt captures one region that never matches. -/
def c2Caps : Nat → List Captured := fun _ => [⟨"A", false, some "fail.png"⟩]

/-- The region fails on attempt 0 and matches from attempt 1 on. -/
def c3Caps : Nat → List Captured := fun i =>
  if i = 0 then [⟨"A", false, some "p0.png"⟩] else [⟨"A", true, some "p1.png"⟩]

set_option maxRecDepth 100000 in
/-- Counterexample to C6 as stated: `compare_color_similarity` does not
handle a shape mismatch by resizing the second image — it compares raw
histograms, so its value differs from the value on the resized image. -/
theorem compare_color_similarity_no_resize :
    cxImg1.shape ≠ cxImg2.shape ∧
    cxCV.resize cxImg2 cxImg1.shape = .ok cxResized ∧
    compare_color_similarity cxCV cxImg1 cxImg2
      ≠ compare_color_similarity cxCV cxImg1 cxResized := by
  refine ⟨by decide, rfl, ?_⟩
  have h1 : compare_color_similarity cxCV cxImg1 cxImg2 = 1/6 := by
    with_unfolding_all rfl
  have h2 : compare_color_similarity cxCV cxImg1 cxResized = 0 := by
    with_unfolding_all rfl
  rw [h1, h2]
  norm_num

/-- C6 amended: `calculate_color_difference` and
`calculate_structural_similarity` handle a dimension mismatch by resizing
the second image to the shape of the first; `compare_color_similarity` is
shape-insensitive (raw histograms, no resize); on failure of the underlying
primitives the metrics return 0, 0, and `+∞` respectively. -/
theorem metrics_resize_and_failure_values :
    (∀ (cv : CVOracle) (i1 i2 : Img),
      cv.compareHist (calculate_color_histogram i1) (calculate_color_histogram i2)
          = .error () →
        compare_color_similarity cv i1 i2 = 0) ∧
    (∀ (cv : CVOracle) (i1 i2 j : Img), i1.shape ≠ i2.shape →
      cv.resize i2 i1.shape = .ok j →
        calculate_color_difference cv i1 i2 =
          (match absdiffMean i1 j with
           | .ok d => (d : WithTop ℚ)
           | .error _ => ⊤)) ∧
    (∀ (cv : CVOracle) (i1 i2 : Img), i1.shape ≠ i2.shape →
      cv.resize i2 i1.shape = .error () →
        calculate_color_difference cv i1 i2 = ⊤) ∧
    (∀ (cv : CVOracle) (i1 i2 : Img) (g1 g2 j : GrayImg),
      cv.toGray i1 = .ok g1 → cv.toGray i2 = .ok g2 → g1.shape ≠ g2.shape →
      cv.resizeGray g2 g1.shape = .ok j →
        calculate_structural_similarity cv i1 i2 =
          (match cv.ssim g1 j with
           | .ok s => max 0 s
           | .error _ => 0)) ∧
    (∀ (cv : CVOracle) (i1 i2 : Img),
      cv.toGray i1 = .error () → calculate_structural_similarity cv i1 i2 = 0) ∧
    (∀ (cv : CVOracle) (i1 i2 : Img) (g1 g2 : GrayImg),
      cv.toGray i1 = .ok g1 → cv.toGray i2 = .ok g2 → g1.shape ≠ g2.shape →
      cv.resizeGray g2 g1.shape = .error () →
        calculate_structural_similarity cv i1 i2 = 0) := by
  refine ⟨?_, ?_, ?_, ?_, ?_, ?_⟩
  · intro cv i1 i2 h
    simp only [compare_color_similarity, h]
  · intro cv i1 i2 j hne h
    simp only [calculate_color_difference, if_neg hne, h]
  · intro cv i1 i2 hne h
    simp only [calculate_color_difference, if_neg hne, h]
  · intro cv i1 i2 g1 g2 j h1 h2 hne hr
    simp only [calculate_structural_similarity, h1, h2, if_neg hne, hr]
  · intro cv i1 i2 h
    simp only [calculate_structural_similarity, h]
  · intro cv i1 i2 g1 g2 h1 h2 hne hr
    simp only [calculate_structural_similarity, h1, h2, if_neg hne, hr]

/-- Witness for the amended C6 theorem at concrete inputs. -/
theorem metrics_resize_and_failure_values_witness :
    failCV.compareHist (calculate_color_histogram cxImg1) (calculate_color_histogram cxImg2)
        = .error () ∧
    compare_color_similarity failCV cxImg1 cxImg2 = 0 ∧
    cxImg1.shape ≠ cxImg2.shape ∧
    failCV.resize cxImg2 cxImg1.shape = .error () ∧
    calculate_color_difference failCV cxImg1 cxImg2 = ⊤ ∧
    calculate_structural_similarity failCV cxImg1 cxImg2 = 0 :=
  ⟨rfl,
   metrics_resize_and_failure_values.1 failCV cxImg1 cxImg2 rfl,
   by decide,
   rfl,
   metrics_resize_and_failure_values.2.2.1 failCV cxImg1 cxImg2 (by decide) rfl,
   metrics_resize_and_failure_values.2.2.2.2.1 failCV cxImg1 cxImg2 rfl⟩
set_option maxRecDepth 1000000 in
/-- C9: with two references, the multi-reference verdict is a match even
though neither reference individually matches — the three metrics are
aggregated independently across references. -/
theorem multi_reference_match_without_individual_match :
    c9Refs.length = 2 ∧
    (analyze_image_multi_reference c9CV defaultThresholds c9Refs c9Current).map
        (fun o => o.is_match) = some true ∧
    (∀ p ∈ c9Refs,
      (analyze_image c9CV defaultThresholds c9Refs c9Current p.1).map
          (fun o => o.is_match) = some false) := by
  refine ⟨rfl, by with_unfolding_all rfl, ?_⟩
  intro p hp
  simp only [c9Refs, List.mem_cons, List.not_mem_nil, or_false] at hp
  rcases hp with rfl | rfl
  · with_unfolding_all rfl
  · with_unfolding_all rfl

/-- The polling loop exits no later than one check past the stop index. -/
theorem waitSteps_le_stop (seconds : ℚ) (s : Nat) :
    ∀ fuel i, waitSteps seconds (fun j => decide (j ≤ s)) fuel i ≤ max i (s + 1) := by
  intro fuel
  induction fuel with
  | zero => intro i; simp only [waitSteps]; exact le_max_left i (s + 1)
  | succ n ih =>
    intro i
    rw [waitSteps]
    split
    · rename_i hcond
      have hi : i ≤ s := by simpa using hcond.2
      have := ih (i + 1)
      have hmax : max (i + 1) (s + 1) = s + 1 := max_eq_right (by omega)
      rw [hmax] at this
      exact this.trans (le_max_right i (s + 1))
    · exact le_max_left i (s + 1)

/-- Counterexample to C8 as stated: the polling quantum is exactly 100 ms
(`time.sleep(0.1)`), not strictly below 100 ms. -/
theorem sleep_quantum_not_sub_100ms : ¬ sleepQuantum < 1/10 := by
  norm_num [sleepQuantum]

/-- C8 amended: the cancellable wait polls the cancellation flag at a 100 ms
quantum; if the flag is cleared at check index `s + 1` (stop issued during
the `s`-th sleep), the loop exits within one polling quantum of the stop,
independent of the configured duration `D ≥ 1`, and the quantum is ≤ 0.2 s. -/
theorem wait_with_cancel_latency_bound :
    sleepQuantum = 1/10 ∧
    ∀ (D : ℚ), 1 ≤ D → ∀ (s : Nat),
      wait_with_cancel_steps D (fun j => decide (j ≤ s)) ≤ s + 1 ∧
      sleepQuantum * (wait_with_cancel_steps D (fun j => decide (j ≤ s)) : ℚ)
        ≤ sleepQuantum * (s : ℚ) + sleepQuantum ∧
      sleepQuantum ≤ 2/10 := by
  refine ⟨rfl, ?_⟩
  intro D _ s
  have hle : wait_with_cancel_steps D (fun j => decide (j ≤ s)) ≤ s + 1 := by
    have := waitSteps_le_stop D s ((10 * D).ceil.toNat + 1) 0
    simpa [wait_with_cancel_steps] using this
  refine ⟨hle, ?_, by norm_num [sleepQuantum]⟩
  have hq : (wait_with_cancel_steps D (fun j => decide (j ≤ s)) : ℚ) ≤ (s : ℚ) + 1 := by
    exact_mod_cast hle
  calc sleepQuantum * (wait_with_cancel_steps D (fun j => decide (j ≤ s)) : ℚ)
      ≤ sleepQuantum * ((s : ℚ) + 1) := by
        apply mul_le_mul_of_nonneg_left hq
        norm_num [sleepQuantum]
    _ = sleepQuantum * (s : ℚ) + sleepQuantum := by ring

/-- Witness for the C8 latency bound at `D = 2`, stop index `3`. -/
theorem wait_with_cancel_latency_bound_witness :
    (1 : ℚ) ≤ 2 ∧
    wait_with_cancel_steps 2 (fun j => decide (j ≤ 3)) ≤ 3 + 1 ∧
    sleepQuantum * (wait_with_cancel_steps 2 (fun j => decide (j ≤ 3)) : ℚ)
      ≤ sleepQuantum * (3 : ℚ) + sleepQuantum ∧
    sleepQuantum ≤ 2/10 :=
  ⟨by norm_num, (wait_with_cancel_latency_bound.2 2 (by norm_num) 3)⟩

/-- C5: resume after pause (both the GUI resume path and the misjudgment
`continue_hunting` path) preserves the hunt counter, while stop followed by
a fresh start always resets it to 0. -/
theorem pause_resume_preserves_and_fresh_start_resets :
    (∀ (st : CtrlState), st.is_hunting = true →
      ∀ (timeline : List TAction) (rc : Int) (ri : ℚ) (reqOk : Bool),
        (start_auto_hunt timeline rc ri reqOk (pause_auto_hunt st)).hunt_count
          = st.hunt_count) ∧
    (∀ (st : CtrlState), (continue_hunting st).hunt_count = st.hunt_count) ∧
    (∀ (st : CtrlState) (timeline : List TAction) (rc : Int) (ri : ℚ) (reqOk : Bool),
      timeline ≠ [] →
        (start_auto_hunt timeline rc ri reqOk (stop_auto_hunt st)).hunt_count = 0) := by
  refine ⟨?_, ?_, ?_⟩
  · intro st hrun timeline rc ri reqOk
    simp only [pause_auto_hunt, hrun, if_true]
    unfold start_auto_hunt reset_counter
    split
    · rfl
    · simp only []
      split <;> split <;> simp_all <;> split <;> simp_all
  · intro st
    unfold continue_hunting
    split <;> rfl
  · intro st timeline rc ri reqOk hne
    unfold start_auto_hunt stop_auto_hunt reset_counter
    rw [if_neg (by simpa using hne)]
    simp only []
    split <;> split <;> simp_all <;> split <;> simp_all

/-- Witness for the C5 theorem at a concrete paused/stopped state. -/
theorem pause_resume_fresh_start_witness :
    (⟨false, true, 7⟩ : CtrlState).is_hunting = true ∧
    (start_auto_hunt [⟨.analysis, 0, "分析"⟩] 2 2 true
        (pause_auto_hunt ⟨false, true, 7⟩)).hunt_count = 7 ∧
    ([⟨.analysis, 0, "分析"⟩] : List TAction) ≠ [] ∧
    (start_auto_hunt [⟨.analysis, 0, "分析"⟩] 2 2 true
        (stop_auto_hunt ⟨true, false, 7⟩)).hunt_count = 0 :=
  ⟨rfl,
   pause_resume_preserves_and_fresh_start_resets.1 ⟨false, true, 7⟩ rfl _ 2 2 true,
   by decide,
   pause_resume_preserves_and_fresh_start_resets.2.2 ⟨true, false, 7⟩ _ 2 2 true (by decide)⟩
/-- C4 (code bug): with an empty reference set, `_analyze_regions` returns
an error dict, but the hunt loop routes it through
`_handle_analysis_failure` — the detection path: the shiny BGM plays — and
`_show_result_dialog` then raises `KeyError` on the missing
`total_regions` key, ending in the generic error handler. -/
theorem empty_reference_routed_to_detection_path :
    c4Outcome.has_failure = true ∧
    c4Outcome.failed_regions = ["无参考图像"] ∧
    c4Outcome.total_regions = none ∧
    show_result_dialog c4Outcome = .error "KeyError: total_regions" ∧
    (huntStep c4Env ⟨true, 0, 0, 0⟩ 0 ⟨.analysis, 0, "分析"⟩).2.1 =
      [HEvent.progress 0 0 "步骤1: 分析", HEvent.shinyBgm,
       HEvent.errorDialog "自动刷闪出错: KeyError: total_regions", HEvent.stopped 0] ∧
    (huntStep c4Env ⟨true, 0, 0, 0⟩ 0 ⟨.analysis, 0, "分析"⟩).2.2 = true ∧
    (huntStep c4Env ⟨true, 0, 0, 0⟩ 0 ⟨.analysis, 0, "分析"⟩).1.is_hunting = false := by
  refine ⟨rfl, rfl, rfl, rfl, by with_unfolding_all rfl, rfl, rfl⟩

/-- The names returned by `capture_all_regions` are exactly the enabled
regions whose capture succeeded, in order. -/
theorem capture_all_regions_names (regions : List RegionInfo) (cap : Rect → Option Img)
    (save : Img → String → String) :
    (capture_all_regions regions cap save).map (fun c => c.name)
      = (regions.filter (fun r => r.enabled && (cap r.region).isSome)).map
          (fun r => r.name) := by
  induction regions with
  | nil => rfl
  | cons r t ih =>
    simp only [capture_all_regions, List.filterMap_cons, List.filter_cons] at ih ⊢
    by_cases he : r.enabled
    · cases hc : cap r.region with
      | none => simpa [he, hc] using ih
      | some img => simpa [he, hc] using ih
    · simpa [he] using ih
set_option maxRecDepth 1000000 in
/-- C10: regions that are disabled or whose capture failed are silently
absent from the round inputs; in the concrete scenario, enabled region
`B` fails to capture and the round reports unanimous success
(`success_count = total_regions = 1`, `attempt_count = 1`) without ever
evaluating `B`. -/
theorem silent_capture_omission_allows_vacuous_success :
    (∀ (regions : List RegionInfo) (cap : Rect → Option Img)
        (save : Img → String → String),
      (capture_all_regions regions cap save).map (fun c => c.name)
        = (regions.filter (fun r => r.enabled && (cap r.region).isSome)).map
            (fun r => r.name)) ∧
    (∃ r ∈ c10Regions, r.name = "B" ∧ r.enabled = true) ∧
    "B" ∉ (capture_all_regions c10Regions c10Cap c10Save).map (fun c => c.name) ∧
    (analyze_regions ["ref"] (fun _ => c10Captures) 2 2).1
      = ⟨false, 1, [], some [], some 1, some 1⟩ := by
  refine ⟨capture_all_regions_names, ?_, ?_, ?_⟩
  · exact ⟨⟨"B", ((2 : Int), (0 : Int), (3 : Int), (1 : Int)), true⟩,
      by simp [c10Regions], rfl, rfl⟩
  · have h : (capture_all_regions c10Regions c10Cap c10Save).map (fun c => c.name)
        = ["A"] := by with_unfolding_all rfl
    rw [h]
    simp
  · with_unfolding_all rfl

/-- A pass over a timeline starting in a non-hunting state does nothing. -/
theorem huntPassAux_not_hunting (env : HuntEnv) (st : HState) (i : Nat)
    (l : List TAction) (h : st.is_hunting = false) :
    huntPassAux env st i l = (st, [], false) := by
  cases l <;> simp [huntPassAux, h]

/-- Unfolding of one pass step on a non-empty timeline. -/
theorem huntPassAux_cons (env : HuntEnv) (st : HState) (i : Nat) (a : TAction)
    (rest : List TAction) :
    huntPassAux env st i (a :: rest) =
      (if st.is_hunting then
        (let step := huntStep env st i a
         if step.2.2 then step
         else
           let tail := huntPassAux env step.1 (i + 1) rest
           (tail.1, step.2.1 ++ tail.2.1, tail.2.2))
      else (st, [], false)) := rfl

/-- Decomposition of a pass over a concatenated timeline. -/
theorem huntPassAux_append (env : HuntEnv) (st : HState) (i : Nat)
    (l1 l2 : List TAction) :
    huntPassAux env st i (l1 ++ l2) =
      (let r1 := huntPassAux env st i l1
       if r1.2.2 then r1
       else
         let r2 := huntPassAux env r1.1 (i + l1.length) l2
         (r2.1, r1.2.1 ++ r2.2.1, r2.2.2)) := by
  induction l1 generalizing st i with
  | nil => simp [huntPassAux]
  | cons a t ih =>
    by_cases hrun : st.is_hunting = true
    · rw [List.cons_append, huntPassAux_cons, huntPassAux_cons]
      simp only [hrun, if_true]
      by_cases hret : (huntStep env st i a).2.2 = true
      · simp [hret]
      · simp only [hret, if_false, Bool.false_eq_true]
        rw [ih]
        have harith : i + 1 + t.length = i + (a :: t).length := by
          simp [List.length_cons]; omega
        by_cases hret2 : (huntPassAux env (huntStep env st i a).1 (i + 1) t).2.2 = true
        · simp [hret2, harith]
        · simp [hret2, harith, List.append_assoc]
    · simp only [Bool.not_eq_true] at hrun
      simp [huntPassAux_not_hunting, hrun]

/-- C7: when a Reset/QuickLoad/Confirm actuation fails during a pass, the
loop surfaces the fatal error dialog, leaves `Running`, returns
immediately (nothing after the single failed actuation — no retry), and
the stop callback carries the current cumulative hunt count. -/
theorem actuation_failure_is_fatal_and_unretried (env : HuntEnv) (st0 st1 : HState)
    (ev1 : List HEvent) (pre rest : List TAction) (a : TAction)
    (hpre : huntPassAux env st0 0 pre = (st1, ev1, false))
    (hrun : st1.is_hunting = true)
    (hkind : a.action = .reset ∨ a.action = .quick_load ∨ a.action = .confirm)
    (hfail : env.actuations st1.actIdx = false) :
    huntPassAux env st0 0 (pre ++ a :: rest) =
      ({ st1 with is_hunting := false, actIdx := st1.actIdx + 1 },
       ev1 ++ [HEvent.progress st1.hunt_count 0
                 ("步骤" ++ toString (pre.length + 1) ++ ": " ++ a.description),
               HEvent.actuate a.action false,
               HEvent.errorDialog (actuateFailMsg a.action),
               HEvent.stopped st1.hunt_count],
       true) := by
  rw [huntPassAux_append, hpre]
  simp only [Bool.false_eq_true, if_false, Nat.zero_add]
  rw [huntPassAux_cons]
  simp only [hrun, if_true]
  rcases hkind with hk | hk | hk <;>
    · obtain ⟨act, delay, desc⟩ := a
      simp only at hk
      subst hk
      simp [huntStep, hfail, handle_error]

/-- Witness for the actuation-failure theorem: empty prefix, failing reset. -/
theorem actuation_failure_witness :
    huntPassAux c7Env c7St 0 [] = (c7St, [], false) ∧
    c7St.is_hunting = true ∧
    c7Env.actuations c7St.actIdx = false ∧
    huntPassAux c7Env c7St 0 ([] ++ c7Act :: []) =
      ({ c7St with is_hunting := false, actIdx := c7St.actIdx + 1 },
       [] ++ [HEvent.progress c7St.hunt_count 0 ("步骤" ++ toString (0 + 1) ++ ": " ++ c7Act.description),
              HEvent.actuate .reset false,
              HEvent.errorDialog (actuateFailMsg .reset),
              HEvent.stopped c7St.hunt_count],
       true) :=
  ⟨rfl, rfl, rfl,
   actuation_failure_is_fatal_and_unretried c7Env c7St c7St [] [] [] c7Act
     rfl rfl (Or.inl rfl) rfl⟩
/-- Dictionary lookup over a registry with unique names finds the image
of each reference. -/
theorem findRef_of_nodup :
    ∀ (refs : List (String × Img)), (refs.map Prod.fst).Nodup →
      ∀ p ∈ refs, findRef p.1 refs = some p.2 := by
  intro refs
  induction refs with
  | nil => intro _ p hp; cases hp
  | cons q rest ih =>
    intro hnd p hp
    rw [List.map_cons, List.nodup_cons] at hnd
    obtain ⟨hnotin, hndrest⟩ := hnd
    rcases List.mem_cons.mp hp with heq | hmem
    · subst heq
      simp [findRef]
    · have hne : q.1 ≠ p.1 := by
        intro h
        exact hnotin (h ▸ List.mem_map_of_mem Prod.fst hmem)
      rw [findRef, if_neg hne]
      exact ih hndrest p hmem

/-- With unique reference names, `analyze_image` succeeds on every loaded
reference and computes the `perRef` record. -/
theorem analyze_image_eq_perRef (cv : CVOracle) (thr : Thresholds)
    (refs : List (String × Img)) (hnd : (refs.map Prod.fst).Nodup) (current : Img)
    (p : String × Img) (hp : p ∈ refs) :
    analyze_image cv thr refs current p.1 = some (perRef cv thr current p) := by
  unfold analyze_image
  rw [findRef_of_nodup refs hnd p hp]
  rfl

/-- The reference loop of `analyze_image_multi_reference` keeps one result
per reference. -/
theorem filterMap_analyze (cv : CVOracle) (thr : Thresholds)
    (refs : List (String × Img)) (current : Img) (hnd : (refs.map Prod.fst).Nodup) :
    ∀ (l : List (String × Img)), (∀ p ∈ l, p ∈ refs) →
      l.filterMap (fun p => analyze_image cv thr refs current p.1)
        = l.map (perRef cv thr current) := by
  intro l
  induction l with
  | nil => intro _; rfl
  | cons q t ih =>
    intro hsub
    rw [List.filterMap_cons,
      analyze_image_eq_perRef cv thr refs hnd current q (hsub q (List.mem_cons_self q t)),
      List.map_cons, ih (fun p hp => hsub p (List.mem_cons_of_mem q hp))]

/-- The Python `max(..., key=...)` fold returns an element of the list that
attains the maximum key. -/
theorem argmax_foldl_spec :
    ∀ (l : List AnalysisResult) (x : AnalysisResult),
      (l.foldl (fun best r => if best.overall_score < r.overall_score then r else best) x)
        ∈ x :: l ∧
      (l.foldl (fun best r => if best.overall_score < r.overall_score then r else best)
          x).overall_score
        = l.foldl (fun m r => max m r.overall_score) x.overall_score := by
  intro l
  induction l with
  | nil => intro x; exact ⟨List.mem_cons_self x [], rfl⟩
  | cons a t ih =>
    intro x
    simp only [List.foldl_cons]
    obtain ⟨hmem, hval⟩ := ih (if x.overall_score < a.overall_score then a else x)
    constructor
    · rcases List.mem_cons.mp hmem with h | h
      · rw [h]
        by_cases hc : x.overall_score < a.overall_score
        · simp only [if_pos hc]
          exact List.mem_cons_of_mem x (List.mem_cons_self a t)
        · simp only [if_neg hc]
          exact List.mem_cons_self x (a :: t)
      · exact List.mem_cons_of_mem x (List.mem_cons_of_mem a h)
    · rw [hval]
      congr 1
      by_cases hc : x.overall_score < a.overall_score
      · simp [if_pos hc, max_eq_right hc.le]
      · simp [if_neg hc, max_eq_left (not_lt.mp hc)]

/-- `maxList` over a mapped non-empty list as a fold over the original. -/
theorem maxList_map_cons {α : Type} (f : α → ℚ) (x : α) (l : List α) :
    maxList ((x :: l).map f) = l.foldl (fun m r => max m (f r)) (f x) := by
  simp [maxList, List.foldl_map]
/-- C1: against a non-empty registry of uniquely named references, the
multi-reference analysis succeeds and returns the per-reference maxima of
color similarity and SSIM, the per-reference minimum color difference, a
best reference attaining the maximum overall score, and a match verdict
that holds exactly when the three aggregated metrics pass the thresholds. -/
theorem multi_reference_aggregation (cv : CVOracle) (thr : Thresholds)
    (refs : List (String × Img)) (current : Img)
    (hne : refs ≠ []) (hnd : (refs.map Prod.fst).Nodup) :
    ∃ out, analyze_image_multi_reference cv thr refs current = some out ∧
      out.color_similarity
        = maxList (refs.map (fun p => compare_color_similarity cv current p.2)) ∧
      out.structural_similarity
        = maxList (refs.map (fun p => calculate_structural_similarity cv current p.2)) ∧
      out.color_difference
        = minListT (refs.map (fun p => calculate_color_difference cv current p.2)) ∧
      (∃ p ∈ refs, out.best_reference = p.1 ∧
        (compare_color_similarity cv current p.2
            + calculate_structural_similarity cv current p.2) / 2
          = maxList (refs.map (fun q => (compare_color_similarity cv current q.2
              + calculate_structural_similarity cv current q.2) / 2))) ∧
      (out.is_match = true ↔
        thr.color_similarity
            ≤ maxList (refs.map (fun p => compare_color_similarity cv current p.2)) ∧
        thr.ssim_threshold
            ≤ maxList (refs.map (fun p => calculate_structural_similarity cv current p.2)) ∧
        minListT (refs.map (fun p => calculate_color_difference cv current p.2))
            ≤ (thr.color_difference : WithTop ℚ)) := by
  obtain ⟨q, rest, rfl⟩ := List.exists_cons_of_ne_nil hne
  have hfm : (q :: rest).filterMap (fun p => analyze_image cv thr (q :: rest) current p.1)
      = (q :: rest).map (perRef cv thr current) :=
    filterMap_analyze cv thr (q :: rest) current hnd (q :: rest) (fun p hp => hp)
  have hcs : maxList (((q :: rest).map (perRef cv thr current)).map
        (fun r => r.color_similarity))
      = maxList ((q :: rest).map (fun p => compare_color_similarity cv current p.2)) := by
    simp only [List.map_map]
    rfl
  have hss : maxList (((q :: rest).map (perRef cv thr current)).map
        (fun r => r.structural_similarity))
      = maxList ((q :: rest).map (fun p => calculate_structural_similarity cv current p.2)) := by
    simp only [List.map_map]
    rfl
  have hcd : minListT (((q :: rest).map (perRef cv thr current)).map
        (fun r => r.color_difference))
      = minListT ((q :: rest).map (fun p => calculate_color_difference cv current p.2)) := by
    simp only [List.map_map]
    rfl
  simp only [analyze_image_multi_reference, List.isEmpty_cons, if_false, hfm,
    List.map_cons, argmaxOverall, Bool.false_eq_true]
  refine ⟨_, rfl, ?_, ?_, ?_, ?_, ?_⟩
  · simpa only [List.map_cons] using hcs
  · simpa only [List.map_cons] using hss
  · simpa only [List.map_cons] using hcd
  · obtain ⟨hmem, hval⟩ := argmax_foldl_spec (rest.map (perRef cv thr current))
      (perRef cv thr current q)
    rw [← List.map_cons (perRef cv thr current) q rest] at hmem
    obtain ⟨p, hp, hbest⟩ := List.mem_map.mp hmem
    refine ⟨p, hp, ?_, ?_⟩
    · rw [← hbest]
      rfl
    · have hover : (rest.map (perRef cv thr current)).foldl
            (fun m r => max m r.overall_score) (perRef cv thr current q).overall_score
          = maxList ((q :: rest).map (fun p => (compare_color_similarity cv current p.2
              + calculate_structural_similarity cv current p.2) / 2)) := by
        rw [maxList_map_cons, List.foldl_map]
        rfl
      simp only [List.map_cons] at hover
      rw [← hover, ← hval, ← hbest]
      rfl
  · rw [decide_eq_true_iff]
    constructor
    · intro ⟨h1, h2, h3⟩
      refine ⟨?_, ?_, ?_⟩
      · have h := hcs
        simp only [List.map_cons] at h
        rw [← h]
        exact h1
      · have h := hss
        simp only [List.map_cons] at h
        rw [← h]
        exact h2
      · have h := hcd
        simp only [List.map_cons] at h
        rw [← h]
        exact h3
    · intro ⟨h1, h2, h3⟩
      refine ⟨?_, ?_, ?_⟩
      · have h := hcs
        simp only [List.map_cons] at h
        rw [h]
        simpa only [List.map_cons] using h1
      · have h := hss
        simp only [List.map_cons] at h
        rw [h]
        simpa only [List.map_cons] using h2
      · have h := hcd
        simp only [List.map_cons] at h
        rw [h]
        simpa only [List.map_cons] using h3
/-- The region-scan fold, characterized over any accumulator. -/
theorem scanStep_foldl (attempt : Nat) :
    ∀ (l : List Captured) (acc : ScanAcc),
      l.foldl (scanStep attempt) acc =
        ⟨acc.failed_regions
           ++ (l.filter (fun c => !c.is_match)).map (fun c => annotateFail c.name attempt),
         acc.failed_images
           ++ (l.filter (fun c => !c.is_match)).filterMap
               (fun c => c.image_path.map (fun p => (annotateFail c.name attempt, p))),
         acc.success_count + (l.filter (fun c => c.is_match)).length,
         acc.all_success && l.all (fun c => c.is_match)⟩ := by
  intro l
  induction l with
  | nil => intro acc; simp
  | cons c t ih =>
    intro acc
    rw [List.foldl_cons, ih]
    by_cases hm : c.is_match = true
    · simp [scanStep, hm, List.filter_cons, List.all_cons, ScanAcc.mk.injEq]
      omega
    · simp only [Bool.not_eq_true] at hm
      cases hpath : c.image_path with
      | none =>
        simp [scanStep, hm, hpath, List.filter_cons, List.all_cons,
          List.filterMap_cons, ScanAcc.mk.injEq]
      | some path =>
        simp [scanStep, hm, hpath, List.filter_cons, List.all_cons,
          List.filterMap_cons, ScanAcc.mk.injEq]

/-- The region scan in closed form: annotated failures and their evidence
paths in order, the match count, and the unanimity flag. -/
theorem scanRegions_spec (attempt : Nat) (l : List Captured) :
    scanRegions attempt l =
      ⟨(l.filter (fun c => !c.is_match)).map (fun c => annotateFail c.name attempt),
       (l.filter (fun c => !c.is_match)).filterMap
         (fun c => c.image_path.map (fun p => (annotateFail c.name attempt, p))),
       (l.filter (fun c => c.is_match)).length,
       l.all (fun c => c.is_match)⟩ := by
  unfold scanRegions
  rw [scanStep_foldl]
  simp
/-- Unfolding of one attempt of the retry loop. -/
theorem analyzeFrom_succ (captures : Nat → List Captured) (retryCount : Nat)
    (retryInterval : ℚ) (fuel attempt : Nat) :
    analyzeFrom captures retryCount retryInterval (fuel + 1) attempt =
      (let pre : List REvent :=
        if 0 < attempt then [REvent.retryWait retryInterval attempt] else []
       let results := captures attempt
       if results.isEmpty then
        if attempt = retryCount then (captureFailOutcome, pre ++ [REvent.capture attempt])
        else
          let rest := analyzeFrom captures retryCount retryInterval fuel (attempt + 1)
          (rest.1, pre ++ [REvent.capture attempt] ++ rest.2)
       else
        let acc := scanRegions attempt results
        if acc.all_success then
          (⟨false, acc.success_count, [], some [], some results.length, some (attempt + 1)⟩,
           pre ++ [REvent.capture attempt])
        else if attempt < retryCount then
          let rest := analyzeFrom captures retryCount retryInterval fuel (attempt + 1)
          (rest.1, pre ++ [REvent.capture attempt] ++ rest.2)
        else
          (⟨true, acc.success_count, acc.failed_regions, some acc.failed_images,
            some results.length, some (retryCount + 1)⟩,
           pre ++ [REvent.capture attempt])) := rfl

/-- If every reachable attempt has a non-match, the loop runs to the last
attempt and reports its scan. -/
theorem analyzeFrom_allFail (captures : Nat → List Captured) (k : Nat) (ri : ℚ)
    (hfail : ∀ i, i ≤ k → (captures i).isEmpty = false
      ∧ (captures i).all (fun c => c.is_match) = false) :
    ∀ fuel attempt, attempt ≤ k → attempt + fuel = k + 1 →
      (analyzeFrom captures k ri fuel attempt).1 =
        ⟨true, (scanRegions k (captures k)).success_count,
         (scanRegions k (captures k)).failed_regions,
         some (scanRegions k (captures k)).failed_images,
         some (captures k).length, some (k + 1)⟩ := by
  intro fuel
  induction fuel with
  | zero => intro attempt h1 h2; omega
  | succ n ih =>
    intro attempt h1 h2
    rw [analyzeFrom_succ]
    obtain ⟨hne, hall⟩ := hfail attempt h1
    have hacc : (scanRegions attempt (captures attempt)).all_success = false := by
      rw [scanRegions_spec]
      exact hall
    by_cases hlt : attempt < k
    · simp only [hne, Bool.false_eq_true, if_false, hacc, hlt, if_true]
      exact ih (attempt + 1) (by omega) (by omega)
    · have heq : attempt = k := by omega
      subst heq
      simp only [hne, Bool.false_eq_true, if_false, hacc, hlt]

/-- If attempts before `j` fail (empty capture or a non-match) and attempt
`j` captures a non-empty unanimous match, the loop returns the success
outcome of attempt `j` with the trace of attempts `attempt..j`. -/
theorem analyzeFrom_firstSuccess (captures : Nat → List Captured) (k : Nat) (ri : ℚ)
    (j : Nat) (hjk : j ≤ k)
    (hearlier : ∀ i, i < j → (captures i).isEmpty = true
      ∨ (captures i).all (fun c => c.is_match) = false)
    (hj : (captures j).isEmpty = false)
    (hall : (captures j).all (fun c => c.is_match) = true) :
    ∀ fuel attempt, attempt ≤ j → attempt + fuel = k + 1 →
      analyzeFrom captures k ri fuel attempt =
        (⟨false, (captures j).length, [], some [], some (captures j).length, some (j + 1)⟩,
         tracesFrom ri attempt (j + 1 - attempt)) := by
  intro fuel
  induction fuel with
  | zero => intro attempt h1 h2; omega
  | succ n ih =>
    intro attempt h1 h2
    rw [analyzeFrom_succ]
    by_cases haj : attempt = j
    · subst haj
      have hacc : (scanRegions attempt (captures attempt)).all_success = true := by
        rw [scanRegions_spec]
        exact hall
      have hsc : (scanRegions attempt (captures attempt)).success_count
          = (captures attempt).length := by
        rw [scanRegions_spec]
        have : (captures attempt).filter (fun c => c.is_match) = captures attempt :=
          List.filter_eq_self.mpr (by simpa using List.all_eq_true.mp hall)
        simp [this]
      simp only [hj, Bool.false_eq_true, if_false, hacc, if_true, hsc]
      have hone : attempt + 1 - attempt = 1 := by omega
      rw [hone]
      simp [tracesFrom, attemptTrace]
    · have hlt : attempt < j := by omega
      have hrec := ih (attempt + 1) (by omega) (by omega)
      have htr : j + 1 - attempt = (j - attempt) + 1 := by omega
      have htr2 : j + 1 - (attempt + 1) = j - attempt := by omega
      rcases hearlier attempt hlt with hemp | hfal
      · have hnek : attempt ≠ k := by omega
        simp only [hemp, if_true, hnek, Bool.false_eq_true, if_false, hrec, htr2]
        rw [htr, tracesFrom]
        simp [attemptTrace, List.append_assoc]
      · have hne2 : (captures attempt).isEmpty = false := by
          cases hcap : captures attempt with
          | nil =>
            rw [hcap] at hfal
            simp at hfal
          | cons x xs => simp
        have hacc : (scanRegions attempt (captures attempt)).all_success = false := by
          rw [scanRegions_spec]
          exact hfal
        have hltk : attempt < k := by omega
        simp only [hne2, Bool.false_eq_true, if_false, hacc, hltk, if_true, hrec, htr2]
        rw [htr, tracesFrom]
        simp [attemptTrace, List.append_assoc]
/-- C2: when every attempt of the round captures regions and at least one
captured region fails to match, the round returns `has_failure = true`,
`attempt_count = retryCount + 1`, and the failed regions of the last
attempt only, each annotated with the 1-based number of the last attempt,
together with their image paths as evidence. -/
theorem confirmation_persistent_failure (refNames : List String)
    (captures : Nat → List Captured) (k : Nat) (ri : ℚ)
    (href : refNames ≠ [])
    (hfail : ∀ i ≤ k, captures i ≠ [] ∧ ∃ c ∈ captures i, c.is_match = false) :
    (analyze_regions refNames captures k ri).1 =
      ⟨true, ((captures k).filter (fun c => c.is_match)).length,
       ((captures k).filter (fun c => !c.is_match)).map (fun c => annotateFail c.name k),
       some (((captures k).filter (fun c => !c.is_match)).filterMap
         (fun c => c.image_path.map (fun p => (annotateFail c.name k, p)))),
       some (captures k).length, some (k + 1)⟩ := by
  have hfail2 : ∀ i, i ≤ k → (captures i).isEmpty = false
      ∧ (captures i).all (fun c => c.is_match) = false := by
    intro i hi
    obtain ⟨h1, c, hc, hcm⟩ := hfail i hi
    refine ⟨?_, ?_⟩
    · cases hcap : captures i with
      | nil => exact absurd hcap h1
      | cons x xs => simp
    · rw [List.all_eq_false]
      exact ⟨c, hc, by simp [hcm]⟩
  have hrefs : refNames.isEmpty = false := by
    cases refNames with
    | nil => exact absurd rfl href
    | cons x xs => simp
  unfold analyze_regions
  simp only [hrefs, Bool.false_eq_true, if_false]
  rw [analyzeFrom_allFail captures k ri hfail2 (k + 1) 0 (by omega) (by omega)]
  simp [scanRegions_spec]

/-- Witness for C2 at one region failing on both attempts, retryCount 1. -/
theorem confirmation_persistent_failure_witness :
    (["r"] : List String) ≠ [] ∧
    (∀ i ≤ 1, c2Caps i ≠ [] ∧ ∃ c ∈ c2Caps i, c.is_match = false) ∧
    (analyze_regions ["r"] c2Caps 1 2).1 =
      ⟨true, 0, ["A (第2次判断)"], some [("A (第2次判断)", "fail.png")],
       some 1, some 2⟩ :=
  ⟨by decide, by decide, by
    rw [confirmation_persistent_failure ["r"] c2Caps 1 2 (by decide) (by decide)]
    rfl⟩

/-- C3: when all captured regions match on attempt `j` (0-based) and every
earlier attempt failed, the round returns immediately on attempt `j` with
`has_failure = false`, `success_count = total_regions`,
`attempt_count = j + 1`, and its trace is exactly attempts `0..j`, each
attempt after the first preceded by one cancellable retry-interval wait —
nothing after attempt `j`. -/
theorem confirmation_immediate_success (refNames : List String)
    (captures : Nat → List Captured) (k : Nat) (ri : ℚ) (j : Nat)
    (href : refNames ≠ []) (hjk : j ≤ k)
    (hearlier : ∀ i < j, captures i = [] ∨ ∃ c ∈ captures i, c.is_match = false)
    (hj : captures j ≠ []) (hall : ∀ c ∈ captures j, c.is_match = true) :
    analyze_regions refNames captures k ri =
      (⟨false, (captures j).length, [], some [], some (captures j).length, some (j + 1)⟩,
       tracesFrom ri 0 (j + 1)) := by
  have hearlier2 : ∀ i, i < j → (captures i).isEmpty = true
      ∨ (captures i).all (fun c => c.is_match) = false := by
    intro i hi
    rcases hearlier i hi with hemp | ⟨c, hc, hcm⟩
    · left
      simp [hemp]
    · right
      rw [List.all_eq_false]
      exact ⟨c, hc, by simp [hcm]⟩
  have hj2 : (captures j).isEmpty = false := by
    cases hcap : captures j with
    | nil => exact absurd hcap hj
    | cons x xs => simp
  have hall2 : (captures j).all (fun c => c.is_match) = true :=
    List.all_eq_true.mpr (by simpa using hall)
  have hrefs : refNames.isEmpty = false := by
    cases refNames with
    | nil => exact absurd rfl href
    | cons x xs => simp
  unfold analyze_regions
  simp only [hrefs, Bool.false_eq_true, if_false]
  have := analyzeFrom_firstSuccess captures k ri j hjk hearlier2 hj2 hall2
    (k + 1) 0 (by omega) (by omega)
  simpa using this

/-- Witness for C3: first attempt fails, second attempt matches, with one
retry wait between them and no third attempt. -/
theorem confirmation_immediate_success_witness :
    (["r"] : List String) ≠ [] ∧ 1 ≤ 2 ∧
    (∀ i < 1, c3Caps i = [] ∨ ∃ c ∈ c3Caps i, c.is_match = false) ∧
    c3Caps 1 ≠ [] ∧ (∀ c ∈ c3Caps 1, c.is_match = true) ∧
    analyze_regions ["r"] c3Caps 2 2 =
      (⟨false, 1, [], some [], some 1, some 2⟩,
       [REvent.capture 0, REvent.retryWait 2 1, REvent.capture 1]) :=
  ⟨by decide, by omega, by decide, by decide, by decide, by
    rw [confirmation_immediate_success ["r"] c3Caps 2 2 1 (by decide) (by omega)
      (by decide) (by decide) (by decide)]
    rfl⟩
/-- Witness for the C1 aggregation theorem at the two-reference instance. -/
theorem multi_reference_aggregation_witness :
    c9Refs ≠ [] ∧ (c9Refs.map Prod.fst).Nodup ∧
    (∃ out, analyze_image_multi_reference c9CV defaultThresholds c9Refs c9Current = some out ∧
      out.color_similarity
        = maxList (c9Refs.map (fun p => compare_color_similarity c9CV c9Current p.2)) ∧
      out.structural_similarity
        = maxList (c9Refs.map (fun p => calculate_structural_similarity c9CV c9Current p.2)) ∧
      out.color_difference
        = minListT (c9Refs.map (fun p => calculate_color_difference c9CV c9Current p.2)) ∧
      (∃ p ∈ c9Refs, out.best_reference = p.1 ∧
        (compare_color_similarity c9CV c9Current p.2
            + calculate_structural_similarity c9CV c9Current p.2) / 2
          = maxList (c9Refs.map (fun q => (compare_color_similarity c9CV c9Current q.2
              + calculate_structural_similarity c9CV c9Current q.2) / 2))) ∧
      (out.is_match = true ↔
        defaultThresholds.color_similarity
            ≤ maxList (c9Refs.map (fun p => compare_color_similarity c9CV c9Current p.2)) ∧
        defaultThresholds.ssim_threshold
            ≤ maxList (c9Refs.map (fun p => calculate_structural_similarity c9CV c9Current p.2)) ∧
        minListT (c9Refs.map (fun p => calculate_color_difference c9CV c9Current p.2))
            ≤ (defaultThresholds.color_difference : WithTop ℚ))) :=
  ⟨by decide, by decide,
   multi_reference_aggregation c9CV defaultThresholds c9Refs c9Current
     (by decide) (by decide)⟩
end ShiningHunter
